import Mathlib

/-!
Verification of the directory-ingestion pipeline of the read-bridge
repository: the cross-platform markdown enumerator
(`services/TauriService.ts`), the batch scan orchestrator and per-file
ingestion workflow (`services/BookScanner.ts`), and the library-store
collaborators they call.

The TypeScript is embedded shallowly: asynchronous host interactions
(dialog results, directory listings, file reads, store writes) become
explicit oracle arguments recording the environment's responses, thrown
exceptions become `Except String` results carrying the message, and the
mutable library store becomes explicit state passing.
-/

namespace ReadBridge

/-- Models JavaScript `String.prototype.endsWith` (as used on the ASCII
file names and extension literals of the source): the second string is a
suffix of the first. -/
def jsEndsWith (s suff : String) : Bool :=
  suff.data.isSuffixOf s.data

/-- JavaScript `x || null` applied to a `string | null | undefined`
value: the empty string is falsy, so it collapses to `null` (`none`). -/
def jsOrNull : Option String → Option String
  | none => none
  | some s => if s = "" then none else some s

/-- A browser `File` object: name, MIME content-type, content bytes. -/
structure JSFile where
  name : String
  type : String
  content : List Nat
deriving DecidableEq

/-- One entry of Tauri's `fs.readDir` listing
(`src/services/TauriService.ts`, window.__TAURI__.fs.readDir). -/
structure DirEntry where
  name : String
  path : String
  isFile : Bool
deriving DecidableEq

/-- The `kind` of a browser `FileSystemHandle`: `'file' | 'directory'`. -/
inductive HandleKind
  | file
  | directory
deriving DecidableEq

/-- A browser `FileSystemHandle` from `dirHandle.values()`, together with
the outcome the environment gives to `getFile()` on it (`.error` models a
rejected promise; for `kind = directory` the field is never consulted). -/
structure FSHandle where
  kind : HandleKind
  name : String
  getFile : Except String JSFile

instance {ε β : Type} [DecidableEq ε] [DecidableEq β] : DecidableEq (Except ε β)
  | .error a, .error b =>
    if h : a = b then .isTrue (by rw [h])
    else .isFalse (by intro hc; cases hc; exact h rfl)
  | .error _, .ok _ => .isFalse (by intro hc; cases hc)
  | .ok _, .error _ => .isFalse (by intro hc; cases hc)
  | .ok a, .ok b =>
    if h : a = b then .isTrue (by rw [h])
    else .isFalse (by intro hc; cases hc; exact h rfl)

/-- The Tauri-mode branch of `readMarkdownFilesFromDirectory`
(`src/services/TauriService.ts:119-130`): iterate the listing, keep
regular files whose name ends in `.md` or `.markdown`, read each one's
bytes (a failed read is logged and the entry skipped), and wrap the bytes
as a `File` named after the entry with type `text/markdown`. The
`readFile` oracle is `window.__TAURI__.fs.readFile`. -/
def readMarkdownFilesTauri (readFile : String → Except String (List Nat)) :
    List DirEntry → List JSFile
  | [] => []
  | e :: es =>
    if e.isFile && (jsEndsWith e.name ".md" || jsEndsWith e.name ".markdown") then
      match readFile e.path with
      | .ok bytes =>
          { name := e.name, type := "text/markdown", content := bytes }
            :: readMarkdownFilesTauri readFile es
      | .error _ => readMarkdownFilesTauri readFile es
    else
      readMarkdownFilesTauri readFile es

/-- The browser-mode branch of `readMarkdownFilesFromDirectory`
(`src/services/TauriService.ts:131-157`): the async iteration of
`dirHandle.values()` is a stream whose `.error` element models the
iteration itself throwing (directory vanished, permission revoked). Such
a throw is caught by the surrounding `try`, logged, and the files
collected so far are returned — it does not propagate. A matching file
entry is materialized with `getFile()` (a failed materialization is
logged and skipped); an empty content-type on a `.md` name is repaired to
`text/markdown` with the entry's name. -/
def readMarkdownFilesBrowser : List (Except String FSHandle) → List JSFile
  | [] => []
  | .error _ :: _ => []
  | .ok e :: es =>
    if (e.kind == HandleKind.file)
        && (jsEndsWith e.name ".md" || jsEndsWith e.name ".markdown") then
      match e.getFile with
      | .ok f =>
          (if f.type = "" && jsEndsWith e.name ".md" then
            { name := e.name, type := "text/markdown", content := f.content }
          else f) :: readMarkdownFilesBrowser es
      | .error _ => readMarkdownFilesBrowser es
    else
      readMarkdownFilesBrowser es

/-- A `string | FileSystemDirectoryHandle` directory reference together
with the backend environment's responses for it: in native-path mode the
`readDir` outcome and the `readFile` oracle, in capability-handle mode
the handle's entry stream. -/
inductive DirRef
  | path (entries : Except String (List DirEntry))
      (readFile : String → Except String (List Nat))
  | handle (stream : List (Except String FSHandle))

/-- `readMarkdownFilesFromDirectory` (`src/services/TauriService.ts:112-160`):
in native-path mode a `readDir` failure propagates (no local catch); in
capability-handle mode enumeration never raises. -/
def readMarkdownFilesFromDirectory : DirRef → Except String (List JSFile)
  | .path entries readFile =>
    match entries with
    | .error e => .error e
    | .ok es => .ok (readMarkdownFilesTauri readFile es)
  | .handle stream => .ok (readMarkdownFilesBrowser stream)

/-- The `ScanResult` record of `src/services/BookScanner.ts:130-138`. -/
structure ScanResult where
  total : Nat
  added : Nat
  skipped : Nat
  errors : List (String × String)
deriving DecidableEq

/-- The literal duplicate-signal message `'Book already exists'` that the
scan loops string-match on (`src/services/BookScanner.ts:37`). -/
def duplicateMessage : String := "Book already exists"

variable {σ α : Type}

/-- The per-file loop of `BookScanner.scanDirectory`
(`src/services/BookScanner.ts:32-46`). `ingest` abstracts
`addBookFromFile`: it returns the success value or the thrown message,
paired with the library-store state after the call (mutations performed
before a throw survive it). A thrown `'Book already exists'` increments
`skipped`; any other message is appended to `errors` with the file's
name; success increments `added`. -/
def scanLoop (ingest : σ → JSFile → Except String α × σ) :
    σ → List JSFile → ScanResult → σ × ScanResult
  | st, [], r => (st, r)
  | st, f :: fs, r =>
    match ingest st f with
    | (.ok _, st') => scanLoop ingest st' fs { r with added := r.added + 1 }
    | (.error e, st') =>
      if e = duplicateMessage then
        scanLoop ingest st' fs { r with skipped := r.skipped + 1 }
      else
        scanLoop ingest st' fs { r with errors := r.errors ++ [(f.name, e)] }

/-- `BookScanner.scanDirectory` (`src/services/BookScanner.ts:18-52`):
enumerate the directory, set `total` to the candidate count, run the
per-file loop; an enumeration failure is rethrown wrapped as
`Failed to scan directory: <cause>`, and no summary is returned. -/
def scanDirectory (ingest : σ → JSFile → Except String α × σ) (st : σ)
    (dir : DirRef) : Except String (σ × ScanResult) :=
  match readMarkdownFilesFromDirectory dir with
  | .error e => .error ("Failed to scan directory: " ++ e)
  | .ok files =>
      .ok (scanLoop ingest st files
        { total := files.length, added := 0, skipped := 0, errors := [] })

/-- The per-file loop of `BookScanner.addBooksFromFiles`
(`src/services/BookScanner.ts:94-108`), transcribed from its own source
loop (the source duplicates the classification code of `scanDirectory`). -/
def addLoop (ingest : σ → JSFile → Except String α × σ) :
    σ → List JSFile → ScanResult → σ × ScanResult
  | st, [], r => (st, r)
  | st, f :: fs, r =>
    match ingest st f with
    | (.ok _, st') => addLoop ingest st' fs { r with added := r.added + 1 }
    | (.error e, st') =>
      if e = duplicateMessage then
        addLoop ingest st' fs { r with skipped := r.skipped + 1 }
      else
        addLoop ingest st' fs { r with errors := r.errors ++ [(f.name, e)] }

/-- `BookScanner.addBooksFromFiles` (`src/services/BookScanner.ts:86-111`):
the importing phase over an explicitly supplied file list, `total` set to
the list's length up front. -/
def addBooksFromFiles (ingest : σ → JSFile → Except String α × σ) (st : σ)
    (files : List JSFile) : σ × ScanResult :=
  addLoop ingest st files
    { total := files.length, added := 0, skipped := 0, errors := [] }

/-- The structured book record, reduced to the field the pipeline's
invariants depend on: `fileHash`, the deterministic content fingerprint
the store is queried by (`bookExists` looks books up by `fileHash`,
`src/services/BookScanner.ts:116-119`). -/
structure Book where
  fileHash : List Nat
deriving DecidableEq

/-- Modelled from the spec: the library store of `services/DB.ts` (not
under `src/`) — persisted book rows keyed by generated identifiers, plus
per-identifier reading-progress records. -/
structure DBState where
  books : List (Nat × Book)
  progress : List Nat
  nextId : Nat
deriving DecidableEq

/-- Modelled from the spec: `db.addBook` of `services/DB.ts` (not under
`src/`) — persists the record under a fresh generated identifier and
returns the identifier. -/
def DBState.addBook (db : DBState) (b : Book) : Nat × DBState :=
  (db.nextId,
   { books := db.books ++ [(db.nextId, b)], progress := db.progress,
     nextId := db.nextId + 1 })

/-- Modelled from the spec: `db.addReadingProgress` of `services/DB.ts`
(not under `src/`) — initializes a reading-progress record for the
identifier; `err` is the oracle for a store write failure. -/
def DBState.addReadingProgress (db : DBState) (id : Nat)
    (err : Option String) : Except String DBState :=
  match err with
  | some e => .error e
  | none => .ok { db with progress := db.progress ++ [id] }

/-- Whether the store already holds a book with this content fingerprint
(the lookup `db.books.where('fileHash').equals(hash)`). -/
def hashPresent (db : DBState) (c : List Nat) : Bool :=
  db.books.any fun p => p.2.fileHash == c

/-- Modelled from the spec: `handleFileUpload` of `services/ServerUpload.ts`
(not under `src/`) — (a) computes the deterministic content fingerprint of
the file bytes (modelled as the byte sequence itself), (b) hands the file
to the external parser (`parse` oracle; a parse or size-limit failure
throws with its message), (c) checks the store for the fingerprint and, if
present, throws the duplicate message performing no write; otherwise
returns the structured book record. -/
def handleFileUpload (parse : JSFile → Except String Unit) (db : DBState)
    (f : JSFile) : Except String Book :=
  match parse f with
  | .error e => .error e
  | .ok _ =>
    if hashPresent db f.content then .error duplicateMessage
    else .ok { fileHash := f.content }

/-- `BookScanner.addBookFromFile` (`src/services/BookScanner.ts:68-81`):
upload pipeline, then `db.addBook`, then `db.addReadingProgress`; any
throw propagates to the caller, and writes performed before the throw are
not rolled back (there is no compensation code). The result pairs the
outcome with the store state after the call. -/
def addBookFromFile (parse : JSFile → Except String Unit)
    (progressErr : Option String) (db : DBState) (f : JSFile) :
    Except String (Nat × Book) × DBState :=
  match handleFileUpload parse db f with
  | .error e => (.error e, db)
  | .ok book =>
    match db.addBook book with
    | (id, db1) =>
      match db1.addReadingProgress id progressErr with
      | .error e => (.error e, db1)
      | .ok db2 => (.ok (id, book), db2)

/-- The `string | string[] | null` result of Tauri's `dialog.open`. -/
inductive DialogResult
  | single (r : Option String)
  | many (rs : List String)

/-- The Tauri-mode branch of `selectDirectory`
(`src/services/TauriService.ts:82-92`): an array result yields
`result[0] || null`, otherwise `result || null`; user cancellation is the
dialog resolving `null`. -/
def selectDirectoryTauri : DialogResult → Option String
  | .many rs => jsOrNull rs.head?
  | .single r => jsOrNull r

/-- The browser-mode branch of `selectDirectory`
(`src/services/TauriService.ts:93-105`): `showDirectoryPicker` either
resolves a handle or rejects (cancellation `AbortError`, or the API being
absent); every rejection is caught, at most logged, and `null` returned. -/
def selectDirectoryBrowser {β : Type} (picker : Except String β) : Option β :=
  match picker with
  | .ok h => some h
  | .error _ => none

/-- The environment's response to the directory picker, by backend mode. -/
inductive PickerEnv (β : Type)
  | tauri (dialogResult : DialogResult)
  | browser (picker : Except String β)

/-- `selectDirectory` (`src/services/TauriService.ts:81-106`) over either
backend mode. -/
def selectDirectory {β : Type} : PickerEnv β → Option (String ⊕ β)
  | .tauri d => (selectDirectoryTauri d).map Sum.inl
  | .browser p => (selectDirectoryBrowser p).map Sum.inr

/-! ### Helper lemmas about the scan loops -/

/-- One loop step on a successful ingestion. -/
theorem scanLoop_cons_ok (ingest : σ → JSFile → Except String α × σ)
    (st st' : σ) (a : α) (f : JSFile) (fs : List JSFile) (r : ScanResult)
    (h : ingest st f = (.ok a, st')) :
    scanLoop ingest st (f :: fs) r
      = scanLoop ingest st' fs { r with added := r.added + 1 } := by
  simp only [scanLoop, h]

/-- One loop step on the duplicate signal. -/
theorem scanLoop_cons_dup (ingest : σ → JSFile → Except String α × σ)
    (st st' : σ) (f : JSFile) (fs : List JSFile) (r : ScanResult)
    (h : ingest st f = (.error duplicateMessage, st')) :
    scanLoop ingest st (f :: fs) r
      = scanLoop ingest st' fs { r with skipped := r.skipped + 1 } := by
  simp only [scanLoop, h, if_true]

/-- One loop step on a non-duplicate failure. -/
theorem scanLoop_cons_err (ingest : σ → JSFile → Except String α × σ)
    (st st' : σ) (e : String) (f : JSFile) (fs : List JSFile) (r : ScanResult)
    (h : ingest st f = (.error e, st')) (hne : e ≠ duplicateMessage) :
    scanLoop ingest st (f :: fs) r
      = scanLoop ingest st' fs { r with errors := r.errors ++ [(f.name, e)] } := by
  simp only [scanLoop, h, if_neg hne]

/-- The `addBooksFromFiles` loop and the `scanDirectory` loop, though
written twice in the source, compute the same function. -/
theorem addLoop_eq_scanLoop (ingest : σ → JSFile → Except String α × σ) :
    ∀ (files : List JSFile) (st : σ) (r : ScanResult),
      addLoop ingest st files r = scanLoop ingest st files r
  | [], _, _ => rfl
  | f :: fs, st, r => by
    rcases h : ingest st f with ⟨res, st'⟩
    rcases res with e | a
    · by_cases he : e = duplicateMessage
      · subst he
        rw [scanLoop_cons_dup ingest st st' f fs r h]
        simp only [addLoop, h, if_pos rfl]
        exact addLoop_eq_scanLoop ingest fs st' _
      · rw [scanLoop_cons_err ingest st st' e f fs r h he]
        simp only [addLoop, h, if_neg he]
        exact addLoop_eq_scanLoop ingest fs st' _
    · rw [scanLoop_cons_ok ingest st st' a f fs r h]
      simp only [addLoop, h]
      exact addLoop_eq_scanLoop ingest fs st' _

/-- Splitting a scan loop at a list append. -/
theorem scanLoop_append (ingest : σ → JSFile → Except String α × σ) :
    ∀ (xs ys : List JSFile) (st : σ) (r : ScanResult),
      scanLoop ingest st (xs ++ ys) r
        = scanLoop ingest (scanLoop ingest st xs r).1 ys (scanLoop ingest st xs r).2
  | [], _, _, _ => rfl
  | f :: fs, ys, st, r => by
    rw [List.cons_append]
    rcases h : ingest st f with ⟨res, st'⟩
    rcases res with e | a
    · by_cases he : e = duplicateMessage
      · subst he
        rw [scanLoop_cons_dup ingest st st' f (fs ++ ys) r h,
          scanLoop_cons_dup ingest st st' f fs r h]
        exact scanLoop_append ingest fs ys st' _
      · rw [scanLoop_cons_err ingest st st' e f (fs ++ ys) r h he,
          scanLoop_cons_err ingest st st' e f fs r h he]
        exact scanLoop_append ingest fs ys st' _
    · rw [scanLoop_cons_ok ingest st st' a f (fs ++ ys) r h,
        scanLoop_cons_ok ingest st st' a f fs r h]
      exact scanLoop_append ingest fs ys st' _

/-- Each file of the loop contributes to exactly one of the three
classification counters: their sum grows by the length of the list, and
`total` is untouched. -/
theorem scanLoop_counts (ingest : σ → JSFile → Except String α × σ) :
    ∀ (files : List JSFile) (st : σ) (r : ScanResult),
      (scanLoop ingest st files r).2.added + (scanLoop ingest st files r).2.skipped
          + (scanLoop ingest st files r).2.errors.length
        = r.added + r.skipped + r.errors.length + files.length
      ∧ (scanLoop ingest st files r).2.total = r.total
  | [], _, _ => ⟨rfl, rfl⟩
  | f :: fs, st, r => by
    rcases h : ingest st f with ⟨res, st'⟩
    rcases res with e | a
    · by_cases he : e = duplicateMessage
      · subst he
        rw [scanLoop_cons_dup ingest st st' f fs r h]
        have ih := scanLoop_counts ingest fs st' { r with skipped := r.skipped + 1 }
        refine ⟨?_, ih.2⟩
        rw [ih.1]
        simp only [List.length_cons]
        omega
      · rw [scanLoop_cons_err ingest st st' e f fs r h he]
        have ih := scanLoop_counts ingest fs st'
          { r with errors := r.errors ++ [(f.name, e)] }
        refine ⟨?_, ih.2⟩
        rw [ih.1]
        simp only [List.length_cons, List.length_append, List.length_nil]
        omega
    · rw [scanLoop_cons_ok ingest st st' a f fs r h]
      have ih := scanLoop_counts ingest fs st' { r with added := r.added + 1 }
      refine ⟨?_, ih.2⟩
      rw [ih.1]
      simp only [List.length_cons]
      omega

/-- The loop only appends to the failure list. -/
theorem scanLoop_errors_extend (ingest : σ → JSFile → Except String α × σ) :
    ∀ (files : List JSFile) (st : σ) (r : ScanResult),
      ∃ l, (scanLoop ingest st files r).2.errors = r.errors ++ l
  | [], _, r => ⟨[], (List.append_nil r.errors).symm⟩
  | f :: fs, st, r => by
    rcases h : ingest st f with ⟨res, st'⟩
    rcases res with e | a
    · by_cases he : e = duplicateMessage
      · subst he
        rw [scanLoop_cons_dup ingest st st' f fs r h]
        exact scanLoop_errors_extend ingest fs st' _
      · rw [scanLoop_cons_err ingest st st' e f fs r h he]
        rcases scanLoop_errors_extend ingest fs st'
          { r with errors := r.errors ++ [(f.name, e)] } with ⟨l, hl⟩
        exact ⟨(f.name, e) :: l, by simpa using hl⟩
    · rw [scanLoop_cons_ok ingest st st' a f fs r h]
      exact scanLoop_errors_extend ingest fs st' _

/-- Unfolding `scanDirectory` on a successful enumeration. -/
theorem scanDirectory_ok (ingest : σ → JSFile → Except String α × σ) (st : σ)
    (dir : DirRef) (files : List JSFile)
    (h : readMarkdownFilesFromDirectory dir = .ok files) :
    scanDirectory ingest st dir
      = .ok (scanLoop ingest st files
          { total := files.length, added := 0, skipped := 0, errors := [] }) := by
  simp only [scanDirectory, h]

/-- Unfolding `scanDirectory` on a failed enumeration. -/
theorem scanDirectory_err_aux (ingest : σ → JSFile → Except String α × σ) (st : σ)
    (dir : DirRef) (e : String)
    (h : readMarkdownFilesFromDirectory dir = .error e) :
    scanDirectory ingest st dir = .error ("Failed to scan directory: " ++ e) := by
  simp only [scanDirectory, h]

/-! ### Claim theorems: the batch orchestrator -/

/-- C1: Partial-failure isolation: in the per-file loops of
`scanDirectory` and of `addBooksFromFiles`, when the ingestion of one
file fails with any message other than the duplicate signal, the pair
(filename, message) is appended to the summary's error list and the loop
goes on to process every remaining file of the batch from the post-failure
store state — the failure aborts nothing. -/
theorem C1_partial_failure_isolation
    (ingest : σ → JSFile → Except String α × σ) (st st1 st' : σ)
    (pre post : List JSFile) (f : JSFile) (r0 r1 : ScanResult) (e : String)
    (hpre : scanLoop ingest st pre r0 = (st1, r1))
    (hf : ingest st1 f = (.error e, st'))
    (hne : e ≠ duplicateMessage) :
    scanLoop ingest st (pre ++ f :: post) r0
      = scanLoop ingest st' post { r1 with errors := r1.errors ++ [(f.name, e)] }
    ∧ addLoop ingest st (pre ++ f :: post) r0
      = addLoop ingest st' post { r1 with errors := r1.errors ++ [(f.name, e)] } := by
  have h1 : scanLoop ingest st (pre ++ f :: post) r0
      = scanLoop ingest st' post { r1 with errors := r1.errors ++ [(f.name, e)] } := by
    rw [scanLoop_append ingest pre (f :: post) st r0, hpre]
    exact scanLoop_cons_err ingest st1 st' e f post r1 hf hne
  exact ⟨h1, by
    rw [addLoop_eq_scanLoop ingest (pre ++ f :: post) st r0,
      addLoop_eq_scanLoop ingest post st' _, h1]⟩

/-- Witness for C1 at a concrete batch: with a store counting calls, a
batch `[bad, good]` whose first file fails with `"malformed"` records the
error entry and still processes `good`. -/
theorem C1_witness :
    (scanLoop (fun (n : Nat) (f : JSFile) =>
        (if f.name = "bad.md" then (.error "malformed" : Except String Nat) else .ok 0,
         n + 1)) 0 [] { total := 2, added := 0, skipped := 0, errors := [] }
      = (0, { total := 2, added := 0, skipped := 0, errors := [] }))
    ∧ ((fun (n : Nat) (f : JSFile) =>
        (if f.name = "bad.md" then (.error "malformed" : Except String Nat) else .ok 0,
         n + 1)) 0 { name := "bad.md", type := "text/markdown", content := [1] }
      = (.error "malformed", 1))
    ∧ "malformed" ≠ duplicateMessage
    ∧ scanLoop (fun (n : Nat) (f : JSFile) =>
        (if f.name = "bad.md" then (.error "malformed" : Except String Nat) else .ok 0,
         n + 1)) 0
        ([] ++ { name := "bad.md", type := "text/markdown", content := [1] }
          :: [{ name := "good.md", type := "text/markdown", content := [2] }])
        { total := 2, added := 0, skipped := 0, errors := [] }
      = scanLoop (fun (n : Nat) (f : JSFile) =>
          (if f.name = "bad.md" then (.error "malformed" : Except String Nat) else .ok 0,
           n + 1)) 1 [{ name := "good.md", type := "text/markdown", content := [2] }]
          { total := 2, added := 0, skipped := 0,
            errors := [] ++ [("bad.md", "malformed")] } :=
  ⟨by decide, by decide, by decide,
    (C1_partial_failure_isolation _ 0 0 1 []
      [{ name := "good.md", type := "text/markdown", content := [2] }]
      { name := "bad.md", type := "text/markdown", content := [1] }
      { total := 2, added := 0, skipped := 0, errors := [] }
      { total := 2, added := 0, skipped := 0, errors := [] }
      "malformed" (by decide) (by decide) (by decide)).1⟩

/-- C3 counterexample: In capability-handle (browser) mode a
directory-level enumeration failure does not make `scanDirectory` raise:
with the iteration failing immediately (`permission revoked`), the scan
returns a ScanSummary with `total = 0` — refuting the claim that in
either backend mode a directory-level listing failure yields a raised
wrapped error and no summary. -/
theorem C3_counterexample :
    scanDirectory (fun (st : Unit) (_ : JSFile) => ((.ok () : Except String Unit), st)) ()
        (DirRef.handle [.error "permission revoked"])
      = .ok ((), { total := 0, added := 0, skipped := 0, errors := [] }) := by
  decide

/-- C3 (amended): Enumeration-level abort holds in native-path mode
only: there a directory-listing failure makes `scanDirectory` raise the
wrapped error `Failed to scan directory: <cause>` carrying the original
cause, and no ScanSummary is returned; in capability-handle mode the
enumerator swallows the iteration failure and `scanDirectory` always
returns a ScanSummary over the entries materialized before the failure. -/
theorem C3_amended_enumeration_abort
    (ingest : σ → JSFile → Except String α × σ) (st : σ)
    (readFile : String → Except String (List Nat)) (e : String) :
    scanDirectory ingest st (DirRef.path (.error e) readFile)
      = .error ("Failed to scan directory: " ++ e)
    ∧ ∀ stream : List (Except String FSHandle),
        ∃ out, scanDirectory ingest st (DirRef.handle stream) = .ok out := by
  constructor
  · exact scanDirectory_err_aux ingest st (DirRef.path (.error e) readFile) e rfl
  · intro stream
    exact ⟨_, scanDirectory_ok ingest st (DirRef.handle stream)
      (readMarkdownFilesBrowser stream) rfl⟩

/-- C4: Per-file classification: each candidate of the loops of
`scanDirectory` and `addBooksFromFiles` receives exactly one of three
mutually exclusive outcomes — an ingestion failure with the duplicate
signal increments `skipped` and adds nothing to `errors`; any other
failure appends (filename, original message verbatim) to `errors` and
leaves `added` untouched; a success increments `added`. -/
theorem C4_per_file_classification
    (ingest : σ → JSFile → Except String α × σ) (st st' : σ)
    (f : JSFile) (fs : List JSFile) (r : ScanResult) :
    (∀ a, ingest st f = (.ok a, st') →
      scanLoop ingest st (f :: fs) r
        = scanLoop ingest st' fs { r with added := r.added + 1 }
      ∧ addLoop ingest st (f :: fs) r
        = addLoop ingest st' fs { r with added := r.added + 1 })
    ∧ (ingest st f = (.error duplicateMessage, st') →
      scanLoop ingest st (f :: fs) r
        = scanLoop ingest st' fs { r with skipped := r.skipped + 1 }
      ∧ addLoop ingest st (f :: fs) r
        = addLoop ingest st' fs { r with skipped := r.skipped + 1 })
    ∧ ∀ e, ingest st f = (.error e, st') → e ≠ duplicateMessage →
      scanLoop ingest st (f :: fs) r
        = scanLoop ingest st' fs { r with errors := r.errors ++ [(f.name, e)] }
      ∧ addLoop ingest st (f :: fs) r
        = addLoop ingest st' fs { r with errors := r.errors ++ [(f.name, e)] } := by
  refine ⟨fun a h => ⟨scanLoop_cons_ok ingest st st' a f fs r h, ?_⟩,
    fun h => ⟨scanLoop_cons_dup ingest st st' f fs r h, ?_⟩,
    fun e h hne => ⟨scanLoop_cons_err ingest st st' e f fs r h hne, ?_⟩⟩
  · rw [addLoop_eq_scanLoop ingest (f :: fs) st r, addLoop_eq_scanLoop ingest fs st' _]
    exact scanLoop_cons_ok ingest st st' a f fs r h
  · rw [addLoop_eq_scanLoop ingest (f :: fs) st r, addLoop_eq_scanLoop ingest fs st' _]
    exact scanLoop_cons_dup ingest st st' f fs r h
  · rw [addLoop_eq_scanLoop ingest (f :: fs) st r, addLoop_eq_scanLoop ingest fs st' _]
    exact scanLoop_cons_err ingest st st' e f fs r h hne

/-- Witness for C4: the duplicate branch at a concrete input — a thrown
`'Book already exists'` increments `skipped` and records no error. -/
theorem C4_witness :
    scanLoop (fun (n : Nat) (_ : JSFile) =>
        ((.error "Book already exists" : Except String Nat), n)) 0
        [{ name := "dup.md", type := "text/markdown", content := [3] }]
        { total := 1, added := 0, skipped := 0, errors := [] }
      = scanLoop (fun (n : Nat) (_ : JSFile) =>
          ((.error "Book already exists" : Except String Nat), n)) 0 []
          { total := 1, added := 0, skipped := 0 + 1, errors := [] } :=
  ((C4_per_file_classification _ 0 0
      { name := "dup.md", type := "text/markdown", content := [3] } []
      { total := 1, added := 0, skipped := 0, errors := [] }).2.1 (by decide)).1

/-- C8: addBooksFromFiles is exactly the importing phase of
`scanDirectory`: whenever enumeration of the directory yields a candidate
list, `scanDirectory` returns precisely `addBooksFromFiles` applied to
that list (same state, same total, added, skipped and ordered errors). -/
theorem C8_addBooksFromFiles_eq_importing
    (ingest : σ → JSFile → Except String α × σ) (st : σ) (dir : DirRef)
    (files : List JSFile)
    (h : readMarkdownFilesFromDirectory dir = .ok files) :
    scanDirectory ingest st dir = .ok (addBooksFromFiles ingest st files) := by
  rw [scanDirectory_ok ingest st dir files h, addBooksFromFiles,
    addLoop_eq_scanLoop ingest files st _]

/-- Witness for C8 at a concrete browser-mode directory of one file. -/
theorem C8_witness :
    (readMarkdownFilesFromDirectory (DirRef.handle
        [.ok { kind := .file, name := "a.md",
               getFile := .ok { name := "a.md", type := "text/markdown", content := [7] } }])
      = .ok [{ name := "a.md", type := "text/markdown", content := [7] }])
    ∧ scanDirectory (fun (n : Nat) (_ : JSFile) => ((.ok 0 : Except String Nat), n + 1)) 0
        (DirRef.handle
          [.ok { kind := .file, name := "a.md",
                 getFile := .ok { name := "a.md", type := "text/markdown", content := [7] } }])
      = .ok (addBooksFromFiles
          (fun (n : Nat) (_ : JSFile) => ((.ok 0 : Except String Nat), n + 1)) 0
          [{ name := "a.md", type := "text/markdown", content := [7] }]) :=
  ⟨by decide,
    C8_addBooksFromFiles_eq_importing _ 0 _
      [{ name := "a.md", type := "text/markdown", content := [7] }] (by decide)⟩

/-- C9: Cancellation is silent: in browser mode every picker rejection
(user cancellation, capability absent) yields `null` and no raised error;
in Tauri mode the dialog resolving `null` (user cancellation) yields
`null` — `selectDirectory` is a total function into an optional result,
so cancellation is never surfaced as an exception. -/
theorem C9_cancellation_is_silent :
    (∀ (β : Type) (err : String),
        selectDirectory (PickerEnv.browser (β := β) (.error err)) = none)
    ∧ selectDirectory (β := Unit) (PickerEnv.tauri (.single none)) = none :=
  ⟨fun _ _ => rfl, rfl⟩

/-- C10: Summary counter invariant: every ScanSummary returned by
`scanDirectory` or by `addBooksFromFiles` satisfies
`total = added + skipped + errors.length` — the three classifications
partition the candidate set. -/
theorem C10_summary_partition (ingest : σ → JSFile → Except String α × σ) :
    (∀ (st : σ) (dir : DirRef) (out : σ × ScanResult),
        scanDirectory ingest st dir = .ok out →
          out.2.total = out.2.added + out.2.skipped + out.2.errors.length)
    ∧ ∀ (st : σ) (files : List JSFile),
        (addBooksFromFiles ingest st files).2.total
          = (addBooksFromFiles ingest st files).2.added
            + (addBooksFromFiles ingest st files).2.skipped
            + (addBooksFromFiles ingest st files).2.errors.length := by
  have key : ∀ (st : σ) (files : List JSFile),
      (scanLoop ingest st files
          { total := files.length, added := 0, skipped := 0, errors := [] }).2.total
        = (scanLoop ingest st files
            { total := files.length, added := 0, skipped := 0, errors := [] }).2.added
          + (scanLoop ingest st files
              { total := files.length, added := 0, skipped := 0, errors := [] }).2.skipped
          + (scanLoop ingest st files
              { total := files.length, added := 0, skipped := 0, errors := [] }).2.errors.length := by
    intro st files
    have h := scanLoop_counts ingest files st
      { total := files.length, added := 0, skipped := 0, errors := [] }
    rcases h with ⟨h1, h2⟩
    simp only [List.length_nil, Nat.zero_add, Nat.add_zero] at h1 h2
    omega
  constructor
  · intro st dir out h
    cases he : readMarkdownFilesFromDirectory dir with
    | error e => rw [scanDirectory_err_aux ingest st dir e he] at h; exact absurd h (by simp)
    | ok files =>
      rw [scanDirectory_ok ingest st dir files he] at h
      cases h
      exact key st files
  · intro st files
    rw [addBooksFromFiles, addLoop_eq_scanLoop ingest files st _]
    exact key st files

/-! ### Helper lemmas about the enumerator -/

/-- The candidate (if any) that one Tauri directory entry contributes. -/
def tauriCandidate (readFile : String → Except String (List Nat))
    (e : DirEntry) : Option JSFile :=
  if e.isFile && (jsEndsWith e.name ".md" || jsEndsWith e.name ".markdown") then
    match readFile e.path with
    | .ok bytes => some { name := e.name, type := "text/markdown", content := bytes }
    | .error _ => none
  else none

/-- The candidate (if any) that one browser handle contributes. -/
def browserCandidate (h : FSHandle) : Option JSFile :=
  if (h.kind == HandleKind.file)
      && (jsEndsWith h.name ".md" || jsEndsWith h.name ".markdown") then
    match h.getFile with
    | .ok f =>
        some (if f.type = "" && jsEndsWith h.name ".md" then
          { name := h.name, type := "text/markdown", content := f.content }
        else f)
    | .error _ => none
  else none

/-- The Tauri enumerator is the per-entry candidate map. -/
theorem readMarkdownFilesTauri_eq_filterMap
    (readFile : String → Except String (List Nat)) :
    ∀ entries : List DirEntry,
      readMarkdownFilesTauri readFile entries
        = entries.filterMap (tauriCandidate readFile)
  | [] => rfl
  | e :: es => by
    rw [readMarkdownFilesTauri, List.filterMap_cons]
    by_cases hc : (e.isFile && (jsEndsWith e.name ".md" || jsEndsWith e.name ".markdown")) = true
    · rw [if_pos hc]
      cases hr : readFile e.path with
      | ok bytes =>
        simp only [tauriCandidate, if_pos hc, hr]
        rw [readMarkdownFilesTauri_eq_filterMap readFile es]
      | error err =>
        simp only [tauriCandidate, if_pos hc, hr]
        rw [readMarkdownFilesTauri_eq_filterMap readFile es]
    · rw [if_neg hc]
      simp only [tauriCandidate, if_neg hc]
      rw [readMarkdownFilesTauri_eq_filterMap readFile es]

/-- The browser enumerator, on a stream whose iteration does not fail, is
the per-handle candidate map. -/
theorem readMarkdownFilesBrowser_eq_filterMap :
    ∀ es : List FSHandle,
      readMarkdownFilesBrowser (es.map Except.ok) = es.filterMap browserCandidate
  | [] => rfl
  | h :: es => by
    rw [List.map_cons, readMarkdownFilesBrowser, List.filterMap_cons]
    by_cases hc : ((h.kind == HandleKind.file)
        && (jsEndsWith h.name ".md" || jsEndsWith h.name ".markdown")) = true
    · rw [if_pos hc]
      cases hg : h.getFile with
      | ok f =>
        simp only [browserCandidate, if_pos hc, hg]
        rw [readMarkdownFilesBrowser_eq_filterMap es]
      | error err =>
        simp only [browserCandidate, if_pos hc, hg]
        rw [readMarkdownFilesBrowser_eq_filterMap es]
    · rw [if_neg hc]
      simp only [browserCandidate, if_neg hc]
      rw [readMarkdownFilesBrowser_eq_filterMap es]

/-- Characterization of the candidate one Tauri entry contributes. -/
theorem tauriCandidate_eq_some (readFile : String → Except String (List Nat))
    (e : DirEntry) (f : JSFile) :
    tauriCandidate readFile e = some f
      ↔ e.isFile = true
        ∧ (jsEndsWith e.name ".md" = true ∨ jsEndsWith e.name ".markdown" = true)
        ∧ readFile e.path = .ok f.content
        ∧ f.name = e.name ∧ f.type = "text/markdown" := by
  unfold tauriCandidate
  by_cases hc : (e.isFile && (jsEndsWith e.name ".md" || jsEndsWith e.name ".markdown")) = true
  · rw [if_pos hc]
    rw [Bool.and_eq_true, Bool.or_eq_true] at hc
    cases hr : readFile e.path with
    | ok bytes =>
      constructor
      · intro hsome
        rcases f with ⟨fn, ft, fc⟩
        cases hsome
        exact ⟨hc.1, hc.2, rfl, rfl, rfl⟩
      · rintro ⟨-, -, h3, h4, h5⟩
        rcases f with ⟨fn, ft, fc⟩
        simp only [Except.ok.injEq] at h3
        simp only at h4 h5
        subst h3; subst h4; subst h5
        rfl
    | error err =>
      constructor
      · intro hsome; exact Option.noConfusion hsome
      · rintro ⟨-, -, h3, -⟩
        exact Except.noConfusion h3
  · rw [if_neg hc]
    rw [Bool.and_eq_true, Bool.or_eq_true] at hc
    constructor
    · intro hsome; cases hsome
    · rintro ⟨h1, h2, -⟩
      exact absurd ⟨h1, h2⟩ hc

/-- Characterization of the candidate one browser handle contributes. -/
theorem browserCandidate_eq_some (h : FSHandle) (f : JSFile) :
    browserCandidate h = some f
      ↔ h.kind = HandleKind.file
        ∧ (jsEndsWith h.name ".md" = true ∨ jsEndsWith h.name ".markdown" = true)
        ∧ ∃ g, h.getFile = .ok g
          ∧ f = (if g.type = "" && jsEndsWith h.name ".md" then
              { name := h.name, type := "text/markdown", content := g.content }
            else g) := by
  unfold browserCandidate
  by_cases hc : ((h.kind == HandleKind.file)
      && (jsEndsWith h.name ".md" || jsEndsWith h.name ".markdown")) = true
  · rw [if_pos hc]
    rw [Bool.and_eq_true, Bool.or_eq_true, beq_iff_eq] at hc
    cases hg : h.getFile with
    | ok g =>
      constructor
      · intro hsome
        cases hsome
        exact ⟨hc.1, hc.2, g, rfl, rfl⟩
      · rintro ⟨-, -, g', hg', hf⟩
        injection hg' with hgg
        subst hgg
        rw [hf]
    | error err =>
      constructor
      · intro hsome; exact Option.noConfusion hsome
      · rintro ⟨-, -, g', hg', -⟩
        exact Except.noConfusion hg'
  · rw [if_neg hc]
    rw [Bool.and_eq_true, Bool.or_eq_true, beq_iff_eq] at hc
    constructor
    · intro hsome; cases hsome
    · rintro ⟨h1, h2, -⟩
      exact absurd ⟨h1, h2⟩ hc

/-! ### Claim theorems: the enumerator -/

/-- C5 counterexample: The claimed biconditional fails at a regular
`.md` entry whose read fails: the entry satisfies the claimed filter
condition, yet no CandidateFile is produced — the enumerator skips
entries whose contents cannot be read. -/
theorem C5_counterexample :
    ({ name := "a.md", path := "a.md", isFile := true } : DirEntry).isFile = true
    ∧ jsEndsWith "a.md" ".md" = true
    ∧ readMarkdownFilesTauri (fun _ => .error "read failed")
        [{ name := "a.md", path := "a.md", isFile := true }] = [] := by
  refine ⟨rfl, by decide, rfl⟩

/-- C5 (amended): Extension filter correctness: in either backend mode
a CandidateFile is produced if and only if the listing holds a regular
file entry whose name ends with the literal suffix `.md` or `.markdown`
(case-sensitive) *and whose contents are successfully read* — a failed
per-entry read skips that entry. Only entries of the selected directory's
own listing are consulted, so nothing inside a subdirectory is produced;
concretely, a readable directory `a.md, b.markdown, c.txt, d.MD` yields
exactly the candidates `a.md` and `b.markdown`. -/
theorem C5_amended_extension_filter
    (readFile : String → Except String (List Nat)) :
    (∀ (entries : List DirEntry) (f : JSFile),
      f ∈ readMarkdownFilesTauri readFile entries
        ↔ ∃ e ∈ entries, e.isFile = true
            ∧ (jsEndsWith e.name ".md" = true ∨ jsEndsWith e.name ".markdown" = true)
            ∧ readFile e.path = .ok f.content
            ∧ f.name = e.name ∧ f.type = "text/markdown")
    ∧ (∀ (es : List FSHandle) (f : JSFile),
      f ∈ readMarkdownFilesBrowser (es.map Except.ok)
        ↔ ∃ h ∈ es, h.kind = HandleKind.file
            ∧ (jsEndsWith h.name ".md" = true ∨ jsEndsWith h.name ".markdown" = true)
            ∧ ∃ g, h.getFile = .ok g
              ∧ f = (if g.type = "" && jsEndsWith h.name ".md" then
                  { name := h.name, type := "text/markdown", content := g.content }
                else g))
    ∧ readMarkdownFilesTauri (fun _ => .ok [])
        [{ name := "a.md", path := "p1", isFile := true },
         { name := "b.markdown", path := "p2", isFile := true },
         { name := "c.txt", path := "p3", isFile := true },
         { name := "d.MD", path := "p4", isFile := true }]
      = [{ name := "a.md", type := "text/markdown", content := [] },
         { name := "b.markdown", type := "text/markdown", content := [] }] := by
  refine ⟨fun entries f => ?_, fun es f => ?_, by decide⟩
  · rw [readMarkdownFilesTauri_eq_filterMap, List.mem_filterMap]
    constructor
    · rintro ⟨e, he, hsome⟩
      exact ⟨e, he, (tauriCandidate_eq_some readFile e f).mp hsome⟩
    · rintro ⟨e, he, hcond⟩
      exact ⟨e, he, (tauriCandidate_eq_some readFile e f).mpr hcond⟩
  · rw [readMarkdownFilesBrowser_eq_filterMap, List.mem_filterMap]
    constructor
    · rintro ⟨h, hh, hsome⟩
      exact ⟨h, hh, (browserCandidate_eq_some h f).mp hsome⟩
    · rintro ⟨h, hh, hcond⟩
      exact ⟨h, hh, (browserCandidate_eq_some h f).mpr hcond⟩

/-- C6: Content-type repair: in capability-handle (browser) mode,
every matching entry whose materialized file carries an empty
content-type and whose name ends in `.md` contributes a CandidateFile
whose content-type is the canonical `text/markdown`, not the empty
string. -/
theorem C6_content_type_repair (es : List FSHandle) (h : FSHandle) (g : JSFile)
    (hmem : h ∈ es) (hkind : h.kind = HandleKind.file)
    (hname : jsEndsWith h.name ".md" = true)
    (hget : h.getFile = .ok g) (htype : g.type = "") :
    ({ name := h.name, type := "text/markdown", content := g.content } : JSFile)
      ∈ readMarkdownFilesBrowser (es.map Except.ok) := by
  rw [readMarkdownFilesBrowser_eq_filterMap, List.mem_filterMap]
  refine ⟨h, hmem, ?_⟩
  rw [browserCandidate_eq_some]
  exact ⟨hkind, Or.inl hname, g, hget, by rw [if_pos (by simp [htype, hname])]⟩

/-- Witness for C6: the handle `notes.md` materializing with an empty
content-type is emitted repaired to `text/markdown`. -/
theorem C6_witness :
    ({ kind := .file, name := "notes.md",
        getFile := .ok { name := "notes.md", type := "", content := [5] } } : FSHandle)
        ∈ [({ kind := .file, name := "notes.md",
              getFile := .ok { name := "notes.md", type := "", content := [5] } } : FSHandle)]
    ∧ ({ name := "notes.md", type := "text/markdown", content := [5] } : JSFile)
        ∈ readMarkdownFilesBrowser
            ([({ kind := .file, name := "notes.md",
                 getFile := .ok { name := "notes.md", type := "", content := [5] } } : FSHandle)].map
              Except.ok) :=
  ⟨List.mem_singleton.mpr rfl,
    C6_content_type_repair _ _ { name := "notes.md", type := "", content := [5] }
      (List.mem_singleton.mpr rfl) rfl (by decide) rfl rfl⟩

/-! ### Helper lemmas about the ingestion workflow and the store -/

/-- The condition under which `addBookFromFile` throws the duplicate
signal without touching the store: either the parser itself throws the
duplicate message, or it succeeds and the content fingerprint is already
persisted. -/
def readyDup (parse : JSFile → Except String Unit) (db : DBState)
    (f : JSFile) : Prop :=
  parse f = .error duplicateMessage
    ∨ (parse f = .ok () ∧ hashPresent db f.content = true)

/-- `readyDup` makes the upload pipeline fail with the duplicate signal. -/
theorem handleFileUpload_of_readyDup (parse : JSFile → Except String Unit)
    (db : DBState) (f : JSFile) (h : readyDup parse db f) :
    handleFileUpload parse db f = .error duplicateMessage := by
  unfold handleFileUpload
  rcases h with hp | ⟨hp, hh⟩
  · rw [hp]
  · rw [hp, if_pos hh]

/-- `readyDup` makes one ingestion throw the duplicate signal and leave
the store untouched. -/
theorem addBookFromFile_of_readyDup (parse : JSFile → Except String Unit)
    (perr : Option String) (db : DBState) (f : JSFile)
    (h : readyDup parse db f) :
    addBookFromFile parse perr db f = (.error duplicateMessage, db) := by
  unfold addBookFromFile
  rw [handleFileUpload_of_readyDup parse db f h]

/-- One ingestion only appends to the persisted book rows. -/
theorem addBookFromFile_books_extend (parse : JSFile → Except String Unit)
    (perr : Option String) (db : DBState) (f : JSFile) :
    ∃ tail, (addBookFromFile parse perr db f).2.books = db.books ++ tail := by
  unfold addBookFromFile
  cases hu : handleFileUpload parse db f with
  | error e => exact ⟨[], (List.append_nil _).symm⟩
  | ok book =>
    simp only [DBState.addBook, DBState.addReadingProgress]
    cases perr with
    | some e => exact ⟨[(db.nextId, book)], rfl⟩
    | none => exact ⟨[(db.nextId, book)], rfl⟩

/-- A fingerprint present in the store stays present when rows are
appended. -/
theorem hashPresent_mono (db db' : DBState) (tail : List (Nat × Book))
    (c : List Nat) (hb : db'.books = db.books ++ tail)
    (h : hashPresent db c = true) : hashPresent db' c = true := by
  unfold hashPresent at h ⊢
  rw [hb, List.any_append, h, Bool.true_or]

/-- `readyDup` survives any extension of the persisted rows. -/
theorem readyDup_mono (parse : JSFile → Except String Unit)
    (db db' : DBState) (f : JSFile) (tail : List (Nat × Book))
    (hb : db'.books = db.books ++ tail) (h : readyDup parse db f) :
    readyDup parse db' f := by
  rcases h with hp | ⟨hp, hh⟩
  · exact Or.inl hp
  · exact Or.inr ⟨hp, hashPresent_mono db db' tail f.content hb hh⟩

/-- After a step classified `added` or `skipped` (an `ok` result or the
duplicate signal), the file's duplicate condition holds in the post-step
store. -/
theorem readyDup_after_step (parse : JSFile → Except String Unit)
    (perr : Option String) (db db' : DBState) (f : JSFile)
    (res : Except String (Nat × Book))
    (h : addBookFromFile parse perr db f = (res, db'))
    (hres : res = .error duplicateMessage ∨ ∃ v, res = .ok v) :
    readyDup parse db' f := by
  unfold addBookFromFile at h
  cases hp : parse f with
  | error e =>
    have hu : handleFileUpload parse db f = .error e := by
      unfold handleFileUpload
      rw [hp]
    rw [hu] at h
    cases h
    rcases hres with h1 | ⟨v, hv⟩
    · injection h1 with h1'
      exact Or.inl (by rw [hp, h1'])
    · exact Except.noConfusion hv
  | ok u =>
    cases u
    by_cases hh : hashPresent db f.content = true
    · have hu : handleFileUpload parse db f = .error duplicateMessage := by
        unfold handleFileUpload
        rw [hp, if_pos hh]
      rw [hu] at h
      cases h
      exact Or.inr ⟨hp, hh⟩
    · have hu : handleFileUpload parse db f = .ok { fileHash := f.content } := by
        unfold handleFileUpload
        rw [hp, if_neg hh]
      rw [hu] at h
      cases perr with
      | none =>
        simp only [DBState.addBook, DBState.addReadingProgress] at h
        cases h
        refine Or.inr ⟨hp, ?_⟩
        simp [hashPresent]
      | some e2 =>
        simp only [DBState.addBook, DBState.addReadingProgress] at h
        cases h
        refine Or.inr ⟨hp, ?_⟩
        simp [hashPresent]

/-- The whole first-pass loop only appends to the persisted book rows. -/
theorem scanLoop_books_extend (parse : JSFile → Except String Unit)
    (perr : Option String) :
    ∀ (files : List JSFile) (db : DBState) (r : ScanResult),
      ∃ tail,
        (scanLoop (addBookFromFile parse perr) db files r).1.books
          = db.books ++ tail
  | [], _, _ => ⟨[], (List.append_nil _).symm⟩
  | f :: fs, db, r => by
    rcases hstep : addBookFromFile parse perr db f with ⟨res, db1⟩
    rcases addBookFromFile_books_extend parse perr db f with ⟨t1, ht1⟩
    rw [hstep] at ht1
    have ht1' : db1.books = db.books ++ t1 := ht1
    rcases res with e | v
    · by_cases he : e = duplicateMessage
      · subst he
        rw [scanLoop_cons_dup _ db db1 f fs r hstep]
        rcases scanLoop_books_extend parse perr fs db1
          { r with skipped := r.skipped + 1 } with ⟨t2, ht2⟩
        exact ⟨t1 ++ t2, by rw [ht2, ht1', List.append_assoc]⟩
      · rw [scanLoop_cons_err _ db db1 e f fs r hstep he]
        rcases scanLoop_books_extend parse perr fs db1
          { r with errors := r.errors ++ [(f.name, e)] } with ⟨t2, ht2⟩
        exact ⟨t1 ++ t2, by rw [ht2, ht1', List.append_assoc]⟩
    · rw [scanLoop_cons_ok _ db db1 v f fs r hstep]
      rcases scanLoop_books_extend parse perr fs db1
        { r with added := r.added + 1 } with ⟨t2, ht2⟩
      exact ⟨t1 ++ t2, by rw [ht2, ht1', List.append_assoc]⟩

/-- If a pass adds nothing to the error list, every file of the batch
satisfies the duplicate condition in the final store. -/
theorem scanLoop_no_errors_readyDup (parse : JSFile → Except String Unit)
    (perr : Option String) :
    ∀ (files : List JSFile) (db : DBState) (r : ScanResult),
      (scanLoop (addBookFromFile parse perr) db files r).2.errors = r.errors →
      ∀ f ∈ files,
        readyDup parse (scanLoop (addBookFromFile parse perr) db files r).1 f
  | [], _, _ => fun _ f hf => absurd hf (List.not_mem_nil f)
  | f0 :: fs, db, r => by
    intro herr f hf
    rcases hstep : addBookFromFile parse perr db f0 with ⟨res, db1⟩
    rcases res with e | v
    · by_cases he : e = duplicateMessage
      · subst he
        rw [scanLoop_cons_dup _ db db1 f0 fs r hstep] at herr ⊢
        rcases List.mem_cons.mp hf with rfl | hf'
        · have h0 : readyDup parse db1 f :=
            readyDup_after_step parse perr db db1 f _ hstep (Or.inl rfl)
          rcases scanLoop_books_extend parse perr fs db1
            { r with skipped := r.skipped + 1 } with ⟨t, ht⟩
          exact readyDup_mono parse db1 _ f t ht h0
        · exact scanLoop_no_errors_readyDup parse perr fs db1 _ herr f hf'
      · exfalso
        rw [scanLoop_cons_err _ db db1 e f0 fs r hstep he] at herr
        rcases scanLoop_errors_extend (addBookFromFile parse perr) fs db1
          { r with errors := r.errors ++ [(f0.name, e)] } with ⟨l, hl⟩
        have hl' : (scanLoop (addBookFromFile parse perr) db1 fs
            { r with errors := r.errors ++ [(f0.name, e)] }).2.errors
            = (r.errors ++ [(f0.name, e)]) ++ l := hl
        rw [hl'] at herr
        have hlen := congrArg List.length herr
        simp only [List.length_append, List.length_cons, List.length_nil] at hlen
        omega
    · rw [scanLoop_cons_ok _ db db1 v f0 fs r hstep] at herr ⊢
      rcases List.mem_cons.mp hf with rfl | hf'
      · have h0 : readyDup parse db1 f :=
          readyDup_after_step parse perr db db1 f _ hstep (Or.inr ⟨v, rfl⟩)
        rcases scanLoop_books_extend parse perr fs db1
          { r with added := r.added + 1 } with ⟨t, ht⟩
        exact readyDup_mono parse db1 _ f t ht h0
      · exact scanLoop_no_errors_readyDup parse perr fs db1 _ herr f hf'

/-- A pass over files that all satisfy the duplicate condition classifies
every one of them `skipped` and leaves the store untouched. -/
theorem scanLoop_all_readyDup (parse : JSFile → Except String Unit)
    (perr : Option String) :
    ∀ (files : List JSFile) (db : DBState) (r : ScanResult),
      (∀ f ∈ files, readyDup parse db f) →
      scanLoop (addBookFromFile parse perr) db files r
        = (db, { r with skipped := r.skipped + files.length })
  | [], db, r => fun _ => rfl
  | f0 :: fs, db, r => by
    intro hall
    have h0 := addBookFromFile_of_readyDup parse perr db f0
      (hall f0 (List.mem_cons_self f0 fs))
    rw [scanLoop_cons_dup _ db db f0 fs r h0,
      scanLoop_all_readyDup parse perr fs db
        { r with skipped := r.skipped + 1 }
        (fun f hf => hall f (List.mem_cons_of_mem f0 hf))]
    simp only [Prod.mk.injEq, ScanResult.mk.injEq, List.length_cons, true_and, and_true]
    omega

/-! ### Claim theorems: the ingestion workflow -/

/-- C2: Idempotent re-scan: if a scan of a directory reports no
per-file errors (every candidate was imported or already present), then
a second `scanDirectory` of the same unchanged directory classifies every
candidate as Duplicate — it returns `added = 0` and `skipped = total`
with the same total, and the store is exactly the one the first scan
left (no second library entry for byte-identical content). -/
theorem C2_idempotent_rescan (parse : JSFile → Except String Unit)
    (perr perr2 : Option String) (db0 db1 : DBState) (dir : DirRef)
    (r1 : ScanResult)
    (h1 : scanDirectory (addBookFromFile parse perr) db0 dir = .ok (db1, r1))
    (herr : r1.errors = []) :
    ∃ r2 : ScanResult,
      scanDirectory (addBookFromFile parse perr2) db1 dir = .ok (db1, r2)
      ∧ r2.added = 0 ∧ r2.skipped = r2.total ∧ r2.total = r1.total := by
  cases he : readMarkdownFilesFromDirectory dir with
  | error e =>
    rw [scanDirectory_err_aux _ db0 dir e he] at h1
    exact absurd h1 (by simp)
  | ok files =>
    rw [scanDirectory_ok _ db0 dir files he] at h1
    injection h1 with h1'
    have herr0 : (scanLoop (addBookFromFile parse perr) db0 files
        { total := files.length, added := 0, skipped := 0, errors := [] }).2.errors
        = ({ total := files.length, added := 0, skipped := 0,
             errors := [] } : ScanResult).errors := by
      rw [h1']
      exact herr
    have hready0 := scanLoop_no_errors_readyDup parse perr files db0
      { total := files.length, added := 0, skipped := 0, errors := [] } herr0
    have hready : ∀ f ∈ files, readyDup parse db1 f := by
      intro f hf
      have h := hready0 f hf
      rw [h1'] at h
      exact h
    rw [scanDirectory_ok _ db1 dir files he,
      scanLoop_all_readyDup parse perr2 files db1
        { total := files.length, added := 0, skipped := 0, errors := [] } hready]
    refine ⟨_, rfl, rfl, by simp, ?_⟩
    have ht := (scanLoop_counts (addBookFromFile parse perr) files db0
      { total := files.length, added := 0, skipped := 0, errors := [] }).2
    rw [h1'] at ht
    exact ht.symm

/-- Witness for C2: one-file browser directory, first scan imports it
(summary `1/1/0`, no errors), and the theorem yields the second scan's
`added = 0`, `skipped = total`. -/
theorem C2_witness :
    (scanDirectory
        (addBookFromFile (fun _ => .ok ()) none)
        { books := [], progress := [], nextId := 0 }
        (DirRef.handle [.ok { kind := .file, name := "a.md",
                              getFile := .ok { name := "a.md", type := "text/markdown",
                                               content := [1, 2] } }])
      = .ok ({ books := [(0, { fileHash := [1, 2] })], progress := [0], nextId := 1 },
             { total := 1, added := 1, skipped := 0, errors := [] }))
    ∧ ∃ r2 : ScanResult,
        scanDirectory (addBookFromFile (fun _ => .ok ()) none)
          { books := [(0, { fileHash := [1, 2] })], progress := [0], nextId := 1 }
          (DirRef.handle [.ok { kind := .file, name := "a.md",
                                getFile := .ok { name := "a.md", type := "text/markdown",
                                                 content := [1, 2] } }])
          = .ok ({ books := [(0, { fileHash := [1, 2] })], progress := [0], nextId := 1 }, r2)
        ∧ r2.added = 0 ∧ r2.skipped = r2.total
        ∧ r2.total
          = ({ total := 1, added := 1, skipped := 0, errors := [] } : ScanResult).total :=
  ⟨by decide,
    C2_idempotent_rescan (fun _ => .ok ()) none none
      { books := [], progress := [], nextId := 0 }
      { books := [(0, { fileHash := [1, 2] })], progress := [0], nextId := 1 }
      (DirRef.handle [.ok { kind := .file, name := "a.md",
                            getFile := .ok { name := "a.md", type := "text/markdown",
                                             content := [1, 2] } }])
      { total := 1, added := 1, skipped := 0, errors := [] }
      (by decide) rfl⟩

/-- C7: Non-atomic progress initialization: when the upload pipeline
succeeds and the persist of the book record succeeds but initializing the
reading progress then fails, `addBookFromFile` raises that error (the
batch classifies the file Failed) — yet the book row written by the
persist step is still present in the resulting store, not rolled back. -/
theorem C7_progress_failure_keeps_book (parse : JSFile → Except String Unit)
    (db : DBState) (f : JSFile) (book : Book) (e : String)
    (hup : handleFileUpload parse db f = .ok book) :
    (addBookFromFile parse (some e) db f).1 = .error e
    ∧ (db.nextId, book) ∈ (addBookFromFile parse (some e) db f).2.books := by
  unfold addBookFromFile
  rw [hup]
  refine ⟨?_, ?_⟩ <;> simp [DBState.addBook, DBState.addReadingProgress]

/-- Witness for C7: a fresh store, a parseable file, and a failing
progress write — the call reports the failure while the book row stays. -/
theorem C7_witness :
    (handleFileUpload (fun _ => .ok ()) { books := [], progress := [], nextId := 0 }
        { name := "a.md", type := "text/markdown", content := [9] }
      = .ok { fileHash := [9] })
    ∧ (addBookFromFile (fun _ => .ok ()) (some "store write failed")
        { books := [], progress := [], nextId := 0 }
        { name := "a.md", type := "text/markdown", content := [9] }).1
      = .error "store write failed"
    ∧ (0, ({ fileHash := [9] } : Book))
        ∈ (addBookFromFile (fun _ => .ok ()) (some "store write failed")
            { books := [], progress := [], nextId := 0 }
            { name := "a.md", type := "text/markdown", content := [9] }).2.books :=
  ⟨by decide,
    (C7_progress_failure_keeps_book (fun _ => .ok ())
      { books := [], progress := [], nextId := 0 }
      { name := "a.md", type := "text/markdown", content := [9] }
      { fileHash := [9] } "store write failed" (by decide)).1,
    (C7_progress_failure_keeps_book (fun _ => .ok ())
      { books := [], progress := [], nextId := 0 }
      { name := "a.md", type := "text/markdown", content := [9] }
      { fileHash := [9] } "store write failed" (by decide)).2⟩

/-- Witness for C10 at a concrete one-file browser directory. -/
theorem C10_witness :
    (scanDirectory (fun (n : Nat) (_ : JSFile) => ((.ok 0 : Except String Nat), n)) 0
        (DirRef.handle [.ok { kind := .file, name := "a.md",
                              getFile := .ok { name := "a.md", type := "text/markdown",
                                               content := [1] } }])
      = .ok (0, { total := 1, added := 1, skipped := 0, errors := [] }))
    ∧ ((0, { total := 1, added := 1, skipped := 0, errors := [] }) : Nat × ScanResult).2.total
      = ((0, { total := 1, added := 1, skipped := 0, errors := [] }) : Nat × ScanResult).2.added
        + ((0, { total := 1, added := 1, skipped := 0, errors := [] }) : Nat × ScanResult).2.skipped
        + ((0, { total := 1, added := 1, skipped := 0, errors := [] })
            : Nat × ScanResult).2.errors.length :=
  ⟨by decide,
    (C10_summary_partition (fun (n : Nat) (_ : JSFile) => ((.ok 0 : Except String Nat), n))).1 0
      (DirRef.handle [.ok { kind := .file, name := "a.md",
                            getFile := .ok { name := "a.md", type := "text/markdown",
                                             content := [1] } }])
      (0, { total := 1, added := 1, skipped := 0, errors := [] }) (by decide)⟩

end ReadBridge
